import Mathlib

/-!
Verification of the pipeline error-classification subsystem
(`python-error-examples.py`): the error-code registry, `ErrorContext`,
the `PipelineError` hierarchy, its serialization (`to_dict`, `to_json`,
`__str__`), the type guards, and the fatality classifier `is_fatal_error`.

Python values that can flow through this subsystem are modelled by a small
closed universe: `Val` models JSON-representable Python values stored in
dictionaries (metadata, serialized records), `Exc` models exception objects
(standard exceptions plus the five concrete `PipelineError` variants), and
`PyVal` models an arbitrary value handed to the type guards and classifier.
Python dictionaries are modelled as insertion-ordered association lists;
`dictInsert` mirrors `d[k] = v` (an existing key keeps its position, its
value is overwritten) and `dictUpdate` mirrors `d.update(m)`.

Error codes are modelled by their string values: `ErrorCode` is a
`str`-mixin enum, so each member is a string equal to its own name,
`==` compares by that value, and `json.dumps` serializes the value.
Interpolating a member into `__str__`'s f-string is rendered here as that
value too, following the str-mixin formatting of Python 3.10, the oldest
version the source runs on (it imports `typing.TypeGuard`).
-/

namespace PipelineErr

/-- Model of a JSON-representable Python value: strings, ints, bools,
`None`, and string-keyed dictionaries (as insertion-ordered pair lists). -/
inductive Val where
  | str (s : String)
  | int (n : Int)
  | bool (b : Bool)
  | none
  | dict (d : List (String × Val))

/-- Python `value is None` test on a stored field value. -/
def Val.isNone : Val → Bool
  | Val.none => true
  | _ => false

/-- Python `d[k] = v`: overwrite in place if the key exists (the entry keeps
its original position), otherwise append at the end. -/
def dictInsert (d : List (String × Val)) (k : String) (v : Val) :
    List (String × Val) :=
  match d with
  | [] => [(k, v)]
  | (k0, v0) :: rest =>
      if k0 == k then (k0, v) :: rest else (k0, v0) :: dictInsert rest k v

/-- Python `d.update(entries)`: insert every entry in order. -/
def dictUpdate (d : List (String × Val)) (entries : List (String × Val)) :
    List (String × Val) :=
  entries.foldl (fun acc kv => dictInsert acc kv.1 kv.2) d

/-- The `ErrorCode` enum: closed set of stable string codes
(`class ErrorCode(str, Enum)`, lines 30-69 of the source). -/
inductive ErrorCode where
  | SESSION_LOAD_FAILED
  | SESSION_SAVE_FAILED
  | SESSION_NOT_FOUND
  | SESSION_INVALID_BUGFIX_PATH
  | TASK_EXECUTION_FAILED
  | TASK_VALIDATION_FAILED
  | TASK_NOT_FOUND
  | AGENT_LLM_FAILED
  | AGENT_TIMEOUT
  | AGENT_PARSE_FAILED
  | VALIDATION_INVALID_INPUT
  | VALIDATION_MISSING_FIELD
  | VALIDATION_SCHEMA_FAILED
  | VALIDATION_CIRCULAR_DEPENDENCY
  | VALIDATION_NESTED_EXECUTION
  | RESOURCE_LIMIT_EXCEEDED
deriving DecidableEq

/-- Each enum member's value equals its own name (self-describing string
enum): the wire identifier of the code. -/
def ErrorCode.value : ErrorCode → String
  | .SESSION_LOAD_FAILED => "SESSION_LOAD_FAILED"
  | .SESSION_SAVE_FAILED => "SESSION_SAVE_FAILED"
  | .SESSION_NOT_FOUND => "SESSION_NOT_FOUND"
  | .SESSION_INVALID_BUGFIX_PATH => "SESSION_INVALID_BUGFIX_PATH"
  | .TASK_EXECUTION_FAILED => "TASK_EXECUTION_FAILED"
  | .TASK_VALIDATION_FAILED => "TASK_VALIDATION_FAILED"
  | .TASK_NOT_FOUND => "TASK_NOT_FOUND"
  | .AGENT_LLM_FAILED => "AGENT_LLM_FAILED"
  | .AGENT_TIMEOUT => "AGENT_TIMEOUT"
  | .AGENT_PARSE_FAILED => "AGENT_PARSE_FAILED"
  | .VALIDATION_INVALID_INPUT => "VALIDATION_INVALID_INPUT"
  | .VALIDATION_MISSING_FIELD => "VALIDATION_MISSING_FIELD"
  | .VALIDATION_SCHEMA_FAILED => "VALIDATION_SCHEMA_FAILED"
  | .VALIDATION_CIRCULAR_DEPENDENCY => "VALIDATION_CIRCULAR_DEPENDENCY"
  | .VALIDATION_NESTED_EXECUTION => "VALIDATION_NESTED_EXECUTION"
  | .RESOURCE_LIMIT_EXCEEDED => "RESOURCE_LIMIT_EXCEEDED"

/-- All members of the Error Code Registry, in source order. -/
def ErrorCode.all : List ErrorCode :=
  [.SESSION_LOAD_FAILED, .SESSION_SAVE_FAILED, .SESSION_NOT_FOUND,
   .SESSION_INVALID_BUGFIX_PATH, .TASK_EXECUTION_FAILED,
   .TASK_VALIDATION_FAILED, .TASK_NOT_FOUND, .AGENT_LLM_FAILED,
   .AGENT_TIMEOUT, .AGENT_PARSE_FAILED, .VALIDATION_INVALID_INPUT,
   .VALIDATION_MISSING_FIELD, .VALIDATION_SCHEMA_FAILED,
   .VALIDATION_CIRCULAR_DEPENDENCY, .VALIDATION_NESTED_EXECUTION,
   .RESOURCE_LIMIT_EXCEEDED]

/-- Membership of a string in the Error Code Registry. -/
def isErrorCode (s : String) : Bool :=
  ErrorCode.all.any (fun c => c.value == s)

/-- The `ErrorContext` dataclass (lines 76-117). Fields hold arbitrary
values, defaulting to `None`; the dataclass performs no validation. -/
structure ErrorContext where
  session_path : Val
  task_id : Val
  operation : Val
  user_id : Val
  metadata : List (String × Val)

/-- The empty context, `ErrorContext()`. -/
def ErrorContext.empty : ErrorContext :=
  ErrorContext.mk Val.none Val.none Val.none Val.none []

/-- The loop body of `ErrorContext.to_dict`: the four named fields in the
order of the source list, each included only when it is not `None`. -/
def ErrorContext.namedPairs (c : ErrorContext) : List (String × Val) :=
  (if c.session_path.isNone then [] else [("session_path", c.session_path)])
  ++ (if c.task_id.isNone then [] else [("task_id", c.task_id)])
  ++ (if c.operation.isNone then [] else [("operation", c.operation)])
  ++ (if c.user_id.isNone then [] else [("user_id", c.user_id)])

/-- `ErrorContext.to_dict` (lines 103-117): filter out `None` named fields,
then `result.update(self.metadata)`. -/
def ErrorContext.to_dict (c : ErrorContext) : List (String × Val) :=
  dictUpdate c.namedPairs c.metadata

/-- The tag distinguishing the five concrete `PipelineError` subclasses.
`SessionError` and `ValidationError` carry their stored `_code` string. -/
inductive Variant where
  | sessionError (code : String)
  | taskError
  | validationError (code : String)
  | bugfixSessionValidationError
  | nestedExecutionError

/-- Python `self.__class__.__name__` for each concrete variant. -/
def Variant.className : Variant → String
  | .sessionError _ => "SessionError"
  | .taskError => "TaskError"
  | .validationError _ => "ValidationError"
  | .bugfixSessionValidationError => "BugfixSessionValidationError"
  | .nestedExecutionError => "NestedExecutionError"

/-- The `code` property of each concrete variant: the stored `_code` for
`SessionError`/`ValidationError`, a fixed registry value for the rest. -/
def Variant.code : Variant → String
  | .sessionError c => c
  | .taskError => ErrorCode.TASK_EXECUTION_FAILED.value
  | .validationError c => c
  | .bugfixSessionValidationError => ErrorCode.SESSION_INVALID_BUGFIX_PATH.value
  | .nestedExecutionError => ErrorCode.VALIDATION_NESTED_EXECUTION.value

/-- `SessionError.is_load_error` (lines 291-297): the stored code equals
`ErrorCode.SESSION_LOAD_FAILED`. Only a `SessionError` has this method. -/
def Variant.is_load_error : Variant → Bool
  | .sessionError c => c == ErrorCode.SESSION_LOAD_FAILED.value
  | _ => false

/-- `SessionError.is_save_error` (lines 299-305): the stored code equals
`ErrorCode.SESSION_SAVE_FAILED`. -/
def Variant.is_save_error : Variant → Bool
  | .sessionError c => c == ErrorCode.SESSION_SAVE_FAILED.value
  | _ => false

/-- Model of a Python exception object: either a standard exception
(carrying its class name and message) or a `PipelineError` instance
(variant tag, message, context, optional `__cause__`, timestamp).
The timestamp is carried as its `isoformat()` string. -/
inductive Exc where
  | std (name : String) (message : String)
  | pipe (variant : Variant) (message : String) (context : ErrorContext)
      (cause : Option Exc) (timestamp : String)

/-- Model of an arbitrary Python value handed to the type guards and to
`is_fatal_error`: `None`, plain non-exception values, or an exception. -/
inductive PyVal where
  | none
  | str (s : String)
  | int (n : Int)
  | bool (b : Bool)
  | exc (e : Exc)

/-- Python `error is None`. -/
def PyVal.isNoneVal : PyVal → Bool
  | .none => true
  | _ => false

/-- Python `isinstance(error, BaseException)`. -/
def isBaseException : PyVal → Bool
  | .exc _ => true
  | _ => false

/-- Type guard `is_session_error` (lines 427-446):
`isinstance(error, SessionError)`. The marker variants are direct
subclasses of `PipelineError`, not of `SessionError`. -/
def is_session_error : PyVal → Bool
  | .exc (.pipe (.sessionError _) _ _ _ _) => true
  | _ => false

/-- Type guard `is_task_error` (lines 449-458). -/
def is_task_error : PyVal → Bool
  | .exc (.pipe .taskError _ _ _ _) => true
  | _ => false

/-- Type guard `is_validation_error` (lines 461-470):
`isinstance(error, ValidationError)`. -/
def is_validation_error : PyVal → Bool
  | .exc (.pipe (.validationError _) _ _ _ _) => true
  | _ => false

/-- Type guard `is_pipeline_error` (lines 473-484): true for any of the
five concrete variants. -/
def is_pipeline_error : PyVal → Bool
  | .exc (.pipe _ _ _ _ _) => true
  | _ => false

/-- The `isinstance(error, (BugfixSessionValidationError,
NestedExecutionError))` check of `is_fatal_error` (line 538). -/
def isMarkerVariant : PyVal → Bool
  | .exc (.pipe .bugfixSessionValidationError _ _ _ _) => true
  | .exc (.pipe .nestedExecutionError _ _ _ _) => true
  | _ => false

/-- Line 543 of `is_fatal_error`:
`error.is_load_error() or error.is_save_error()`. -/
def sessionFatal : PyVal → Bool
  | .exc (.pipe v _ _ _ _) => v.is_load_error || v.is_save_error
  | _ => false

/-- Line 547 of `is_fatal_error`:
`error.code == ErrorCode.VALIDATION_NESTED_EXECUTION`. -/
def validationFatal : PyVal → Bool
  | .exc (.pipe v _ _ _ _) => v.code == ErrorCode.VALIDATION_NESTED_EXECUTION.value
  | _ => false

/-- The classifier `is_fatal_error` (lines 491-553), with the source's
guard sequence preserved: `continue_on_error` override; non-exception
values; the marker variants; `SessionError` load/save codes;
`ValidationError` nested-execution code; everything else non-fatal. -/
def is_fatal_error (error : PyVal) (continue_on_error : Bool) : Bool :=
  if continue_on_error then false
  else if error.isNoneVal || !isBaseException error then false
  else if is_pipeline_error error then
    if isMarkerVariant error then true
    else if is_session_error error then sessionFatal error
    else if is_validation_error error then validationFatal error
    else false
  else false

/-- Decimal digit character, `chr(48 + n)` for a digit value `n < 10`. -/
def digitChar (n : Nat) : Char := Char.ofNat (48 + n)

/-- Decimal digit string of a natural number, most significant first. -/
def natDigits (n : Nat) : List Char :=
  if _h : n < 10 then [digitChar n]
  else natDigits (n / 10) ++ [digitChar (n % 10)]
termination_by n
decreasing_by omega

/-- Decimal character list of an integer, as printed by both Python
`repr` and `json.dumps`. -/
def intReprL (n : Int) : List Char :=
  if n < 0 then '-' :: natDigits n.natAbs else natDigits n.natAbs

/-- Decimal text of an integer. -/
def intRepr (n : Int) : String := String.mk (intReprL n)

/-- Model of Python `repr` escaping for one character inside a string
quoted with `quote`. -/
def pyEscChar (quote : Char) (c : Char) : List Char :=
  if c = '\\' then ['\\', '\\']
  else if c = quote then ['\\', quote]
  else if c = '\n' then ['\\', 'n']
  else if c = '\r' then ['\\', 'r']
  else if c = '\t' then ['\\', 't']
  else [c]

/-- Model of Python `repr` of a string: single-quoted, switching to double
quotes when the text contains a single quote but no double quote. -/
def pyReprStr (s : String) : String :=
  if s.data.contains '\x27' && !s.data.contains '"' then
    String.mk ('"' :: s.data.flatMap (pyEscChar '"') ++ ['"'])
  else
    String.mk ('\x27' :: s.data.flatMap (pyEscChar '\x27') ++ ['\x27'])

mutual

/-- Model of Python `repr` of a value stored in a dictionary. -/
def pyReprVal : Val → String
  | .str s => pyReprStr s
  | .int n => intRepr n
  | .bool b => if b then "True" else "False"
  | .none => "None"
  | .dict d => "\x7b" ++ String.intercalate ", " (pyReprEntries d) ++ "\x7d"

/-- The `repr(key): repr(value)` text of each entry of a dictionary. -/
def pyReprEntries : List (String × Val) → List String
  | [] => []
  | (k, v) :: rest => (pyReprStr k ++ ": " ++ pyReprVal v) :: pyReprEntries rest

end

/-- Model of Python `str(d)` for a dictionary `d`. -/
def pyReprDict (d : List (String × Val)) : String :=
  "\x7b" ++ String.intercalate ", " (pyReprEntries d) ++ "\x7d"

/-- Python `type(e).__name__` of an exception. -/
def Exc.className : Exc → String
  | .std name _ => name
  | .pipe v _ _ _ _ => v.className

/-- Python `str(e)`. A standard exception prints its message; a
`PipelineError` prints `"[<code>] <message>"` and, when the context
dictionary is non-empty, appends `" | Context: <context dict>"`
(`PipelineError.__str__`, lines 237-242). -/
def Exc.pyStr : Exc → String
  | .std _ message => message
  | .pipe v message ctx _ _ =>
      if (ctx.to_dict).isEmpty then "[" ++ v.code ++ "] " ++ message
      else "[" ++ v.code ++ "] " ++ message ++ " | Context: "
        ++ pyReprDict ctx.to_dict

/-- `PipelineError.to_dict` (lines 200-227): the four required entries in
source order, then `context` only when the context dictionary is
non-empty, then `cause` only when a cause is attached; the cause
sub-record holds exactly the cause's class name and string form. -/
def PipelineError.to_dict (variant : Variant) (message : String)
    (context : ErrorContext) (cause : Option Exc) (timestamp : String) :
    List (String × Val) :=
  [("name", Val.str variant.className),
   ("code", Val.str variant.code),
   ("message", Val.str (Exc.pyStr (Exc.pipe variant message context cause timestamp))),
   ("timestamp", Val.str timestamp)]
  ++ (if (context.to_dict).isEmpty then []
      else [("context", Val.dict context.to_dict)])
  ++ (match cause with
      | Option.none => []
      | some c =>
          [("cause", Val.dict [("name", Val.str c.className),
                               ("message", Val.str c.pyStr)])])

/-- The `context` argument of `PipelineError.__init__`: an `ErrorContext`,
a raw mapping, `None`, or a value of any other type. -/
inductive CtxArg where
  | ctx (c : ErrorContext)
  | dict (d : List (String × Val))
  | noneArg
  | other

/-- The keyword parameters accepted by the `ErrorContext` dataclass. -/
def allowedCtxKeys : List String :=
  ["session_path", "task_id", "operation", "user_id", "metadata"]

/-- Value bound to keyword `k` in the raw mapping, or the dataclass
default `None` when the key is absent. -/
def getField (d : List (String × Val)) (k : String) : Val :=
  (List.lookup k d).getD Val.none

/-- `ErrorContext(**d)` for a raw mapping `d`, followed by the first use
of the context inside `PipelineError.__init__`: the attribute-flattening
loop calls `self.context.to_dict()`, whose `result.update(self.metadata)`
is where a bad `metadata` binding surfaces. A keyword outside the
dataclass fields raises `TypeError` in `ErrorContext(**d)` itself (before
the update runs). Otherwise `dict.update` decides the outcome: a mapping
merges; the empty string is a no-op, so construction succeeds (modelled
as empty metadata, observationally equal for every use this program makes
of the context); a non-empty string raises `ValueError` (its elements are
single characters, not pairs); a non-iterable value (int, bool, `None`)
raises `TypeError`. -/
def ctxFromDict (d : List (String × Val)) : Except String ErrorContext :=
  match d.all (fun kv => allowedCtxKeys.contains kv.1),
        List.lookup "metadata" d with
  | false, _ =>
      Except.error "TypeError: ErrorContext got an unexpected keyword argument"
  | true, Option.none =>
      Except.ok (ErrorContext.mk (getField d "session_path")
        (getField d "task_id") (getField d "operation")
        (getField d "user_id") [])
  | true, some (Val.dict m) =>
      Except.ok (ErrorContext.mk (getField d "session_path")
        (getField d "task_id") (getField d "operation")
        (getField d "user_id") m)
  | true, some (Val.str s) =>
      if s = "" then
        Except.ok (ErrorContext.mk (getField d "session_path")
          (getField d "task_id") (getField d "operation")
          (getField d "user_id") [])
      else
        Except.error
          "ValueError: dictionary update sequence element #0 has length 1; 2 is required"
  | true, some _ => Except.error "TypeError: metadata object is not iterable"

/-- Context normalization of `PipelineError.__init__` (lines 165-175):
accept an `ErrorContext` as-is, convert a raw mapping, default `None` to
the empty context, and raise `TypeError` on any other type. -/
def normalizeContext : CtxArg → Except String ErrorContext
  | .ctx c => Except.ok c
  | .dict d => ctxFromDict d
  | .noneArg => Except.ok ErrorContext.empty
  | .other => Except.error "TypeError: context must be ErrorContext, dict, or None"

/-- Shared trunk of every concrete variant's constructor: normalize the
context argument, stamp the timestamp, attach the cause. -/
def PipelineError.initPipe (variant : Variant) (message : String)
    (context : CtxArg) (cause : Option Exc) (timestamp : String) :
    Except String Exc :=
  (normalizeContext context).map
    (fun c => Exc.pipe variant message c cause timestamp)

/-- `SessionError.__init__` (lines 268-284): the stored code defaults to
`ErrorCode.SESSION_LOAD_FAILED`. -/
def SessionError.mk (message : String) (context : CtxArg)
    (cause : Option Exc) (code : Option String) (timestamp : String) :
    Except String Exc :=
  PipelineError.initPipe
    (Variant.sessionError (code.getD ErrorCode.SESSION_LOAD_FAILED.value))
    message context cause timestamp

/-- `TaskError` construction: the code is fixed to
`TASK_EXECUTION_FAILED` by the `code` property. -/
def TaskError.mk (message : String) (context : CtxArg)
    (cause : Option Exc) (timestamp : String) : Except String Exc :=
  PipelineError.initPipe Variant.taskError message context cause timestamp

/-- `ValidationError.__init__` (lines 350-366): the stored code defaults
to `ErrorCode.VALIDATION_INVALID_INPUT`. -/
def ValidationError.mk (message : String) (context : CtxArg)
    (cause : Option Exc) (code : Option String) (timestamp : String) :
    Except String Exc :=
  PipelineError.initPipe
    (Variant.validationError (code.getD ErrorCode.VALIDATION_INVALID_INPUT.value))
    message context cause timestamp

/-- `BugfixSessionValidationError` construction: marker type with code
fixed to `SESSION_INVALID_BUGFIX_PATH`. -/
def BugfixSessionValidationError.mk (message : String) (context : CtxArg)
    (cause : Option Exc) (timestamp : String) : Except String Exc :=
  PipelineError.initPipe Variant.bugfixSessionValidationError
    message context cause timestamp

/-- `NestedExecutionError` construction: marker type with code fixed to
`VALIDATION_NESTED_EXECUTION`. -/
def NestedExecutionError.mk (message : String) (context : CtxArg)
    (cause : Option Exc) (timestamp : String) : Except String Exc :=
  PipelineError.initPipe Variant.nestedExecutionError
    message context cause timestamp

/-- Claim C1: for every value `x` of any type, including the fatal marker
variants, `is_fatal_error(x, continue_on_error=True)` returns `False`:
the override short-circuits all further logic. -/
theorem c1_continue_on_error_overrides (x : PyVal) :
    is_fatal_error x true = false := rfl

/-- Claim C2: with `continue_on_error` false, `is_fatal_error` returns
`True` for every `BugfixSessionValidationError` and every
`NestedExecutionError`, regardless of message, context, or cause. -/
theorem c2_marker_variants_fatal (message : String) (ctx : ErrorContext)
    (cause : Option Exc) (ts : String) :
    is_fatal_error
      (.exc (.pipe .bugfixSessionValidationError message ctx cause ts)) false
      = true
    ∧ is_fatal_error
      (.exc (.pipe .nestedExecutionError message ctx cause ts)) false
      = true :=
  ⟨rfl, rfl⟩

/-- Claim C3: with `continue_on_error` false, a `SessionError` is fatal
exactly when its code is `SESSION_LOAD_FAILED` or `SESSION_SAVE_FAILED`
(equivalently, when `is_load_error()` or `is_save_error()` holds; code
`SESSION_NOT_FOUND` gives `False`), and a `ValidationError` is fatal
exactly when its code is `VALIDATION_NESTED_EXECUTION` (the default code
`VALIDATION_INVALID_INPUT` gives `False`). -/
theorem c3_session_validation_code_rules (code message : String)
    (ctx : ErrorContext) (cause : Option Exc) (ts : String) :
    (is_fatal_error (.exc (.pipe (.sessionError code) message ctx cause ts)) false
      = (code == "SESSION_LOAD_FAILED" || code == "SESSION_SAVE_FAILED"))
    ∧ (is_fatal_error (.exc (.pipe (.sessionError code) message ctx cause ts)) false
      = ((Variant.sessionError code).is_load_error
          || (Variant.sessionError code).is_save_error))
    ∧ (is_fatal_error
        (.exc (.pipe (.sessionError "SESSION_NOT_FOUND") message ctx cause ts)) false
      = false)
    ∧ (is_fatal_error (.exc (.pipe (.validationError code) message ctx cause ts)) false
      = (code == "VALIDATION_NESTED_EXECUTION"))
    ∧ (is_fatal_error
        (.exc (.pipe (.validationError ErrorCode.VALIDATION_INVALID_INPUT.value)
          message ctx cause ts)) false
      = false) :=
  ⟨rfl, rfl, rfl, rfl, rfl⟩

/-- Claim C4: with `continue_on_error` false, `is_fatal_error` returns
`False` on `None`, on plain non-exception values (strings, ints, bools),
on any standard exception outside the `PipelineError` hierarchy, and on
every `TaskError` (the only remaining concrete variant after the earlier
rules). The function is total by construction: it is defined on the whole
value universe and never throws. -/
theorem c4_nonfatal_cases (s : String) (n : Int) (b : Bool)
    (name msg message : String) (ctx : ErrorContext) (cause : Option Exc)
    (ts : String) :
    is_fatal_error PyVal.none false = false
    ∧ is_fatal_error (.str s) false = false
    ∧ is_fatal_error (.int n) false = false
    ∧ is_fatal_error (.bool b) false = false
    ∧ is_fatal_error (.exc (.std name msg)) false = false
    ∧ is_fatal_error (.exc (.pipe .taskError message ctx cause ts)) false = false :=
  ⟨rfl, rfl, rfl, rfl, rfl, rfl⟩

/-- Claim C10: the marker variants sit outside the domain-named classes
despite their domain-namespaced codes: `is_validation_error` rejects every
`NestedExecutionError` (code `VALIDATION_NESTED_EXECUTION`) and
`is_session_error` rejects every `BugfixSessionValidationError` (code
`SESSION_INVALID_BUGFIX_PATH`); both are classified fatal by the
marker-type rule (`isMarkerVariant` is true, so the `SessionError` and
`ValidationError` code rules are never reached). -/
theorem c10_markers_outside_domain_classes (message : String)
    (ctx : ErrorContext) (cause : Option Exc) (ts : String) :
    (is_validation_error (.exc (.pipe .nestedExecutionError message ctx cause ts))
      = false)
    ∧ (Variant.nestedExecutionError.code = ErrorCode.VALIDATION_NESTED_EXECUTION.value)
    ∧ (is_session_error
        (.exc (.pipe .bugfixSessionValidationError message ctx cause ts))
      = false)
    ∧ (Variant.bugfixSessionValidationError.code
        = ErrorCode.SESSION_INVALID_BUGFIX_PATH.value)
    ∧ (isMarkerVariant (.exc (.pipe .nestedExecutionError message ctx cause ts))
      = true)
    ∧ (isMarkerVariant
        (.exc (.pipe .bugfixSessionValidationError message ctx cause ts))
      = true)
    ∧ (is_fatal_error (.exc (.pipe .nestedExecutionError message ctx cause ts)) false
      = true)
    ∧ (is_fatal_error
        (.exc (.pipe .bugfixSessionValidationError message ctx cause ts)) false
      = true) :=
  ⟨rfl, rfl, rfl, rfl, rfl, rfl, rfl, rfl⟩

/-- Lowercase hexadecimal digit character for `n < 16`. -/
def hexDigit (n : Nat) : Char :=
  if n < 10 then Char.ofNat (48 + n) else Char.ofNat (87 + n)

/-- Four lowercase hex digits of `n < 65536`, most significant first. -/
def hex4 (n : Nat) : List Char :=
  [hexDigit (n / 4096 % 16), hexDigit (n / 256 % 16),
   hexDigit (n / 16 % 16), hexDigit (n % 16)]

/-- A `\uXXXX` escape. -/
def uEsc (n : Nat) : List Char := '\\' :: 'u' :: hex4 n

/-- Escaping of one character by `json.dumps` with its default
`ensure_ascii=True`: the two JSON specials and the named control escapes,
printable ASCII verbatim, everything else as `\uXXXX` (a surrogate pair
for characters beyond the basic multilingual plane). -/
def jsonEscChar (c : Char) : List Char :=
  if c = '"' then ['\\', '"']
  else if c = '\\' then ['\\', '\\']
  else if c = '\n' then ['\\', 'n']
  else if c = '\t' then ['\\', 't']
  else if c = '\r' then ['\\', 'r']
  else if c = '\x08' then ['\\', 'b']
  else if c = '\x0c' then ['\\', 'f']
  else if 32 ≤ c.toNat ∧ c.toNat ≤ 126 then [c]
  else if c.toNat < 65536 then uEsc c.toNat
  else uEsc (55296 + (c.toNat - 65536) / 1024)
    ++ uEsc (56320 + (c.toNat - 65536) % 1024)

/-- A JSON string literal: quote, escaped characters, quote. -/
def jsonQuoteL (s : String) : List Char :=
  '"' :: (s.data.flatMap jsonEscChar ++ ['"'])

/-- Indentation prefix at nesting level `lvl` under `indent=2`. -/
def indentL (lvl : Nat) : List Char := List.replicate (2 * lvl) ' '

mutual

/-- Output of `json.dumps(v, indent=2)` as a character list, for a value
nested at level `lvl`. -/
def renderJson : Val → Nat → List Char
  | .str s, _ => jsonQuoteL s
  | .int n, _ => intReprL n
  | .bool b, _ => if b then ['t', 'r', 'u', 'e'] else ['f', 'a', 'l', 's', 'e']
  | .none, _ => ['n', 'u', 'l', 'l']
  | .dict [], _ => ['\x7b', '\x7d']
  | .dict (e :: es), lvl =>
      '\x7b' :: '\n' :: (renderEntries (e :: es) (lvl + 1)
        ++ '\n' :: (indentL lvl ++ ['\x7d']))

/-- The members of a non-empty object: each on its own line at level
`lvl`, separated by commas. -/
def renderEntries : List (String × Val) → Nat → List Char
  | [], _ => []
  | (k, v) :: rest, lvl =>
      indentL lvl ++ (jsonQuoteL k ++ ':' :: ' ' :: (renderJson v lvl
        ++ (match rest with
            | [] => []
            | _ :: _ => ',' :: '\n' :: renderEntries rest lvl)))

end

/-- `PipelineError.to_json` (lines 229-235):
`json.dumps(self.to_dict(), indent=2)`. -/
def PipelineError.to_json (variant : Variant) (message : String)
    (context : ErrorContext) (cause : Option Exc) (timestamp : String) :
    String :=
  String.mk
    (renderJson
      (Val.dict (PipelineError.to_dict variant message context cause timestamp)) 0)

/-- JSON whitespace. -/
def isWs (c : Char) : Bool :=
  c.toNat = 32 || c.toNat = 10 || c.toNat = 9 || c.toNat = 13

/-- Drop leading JSON whitespace. -/
def skipWs : List Char → List Char
  | [] => []
  | c :: rest => if isWs c then skipWs rest else c :: rest

/-- ASCII decimal digit test. -/
def isDigitCh (c : Char) : Bool := 48 ≤ c.toNat && c.toNat ≤ 57

/-- Value of one hexadecimal digit character. -/
def hexVal (c : Char) : Option Nat :=
  if 48 ≤ c.toNat ∧ c.toNat ≤ 57 then some (c.toNat - 48)
  else if 97 ≤ c.toNat ∧ c.toNat ≤ 102 then some (c.toNat - 87)
  else if 65 ≤ c.toNat ∧ c.toNat ≤ 70 then some (c.toNat - 55)
  else Option.none

/-- Read four hex digits. -/
def parse4Hex : List Char → Option (Nat × List Char)
  | c1 :: c2 :: c3 :: c4 :: rest =>
      match hexVal c1, hexVal c2, hexVal c3, hexVal c4 with
      | some d1, some d2, some d3, some d4 =>
          some (d1 * 4096 + d2 * 256 + d3 * 16 + d4, rest)
      | _, _, _, _ => Option.none
  | _ => Option.none

/-- Read a `\uXXXX` escape body (after the `u`), recombining a
high/low surrogate pair into one character as `json.loads` does. -/
def parseU (l : List Char) : Option (Char × List Char) :=
  match parse4Hex l with
  | Option.none => Option.none
  | some (n, rest1) =>
      if 55296 ≤ n ∧ n ≤ 56319 then
        match rest1 with
        | '\\' :: 'u' :: rest2 =>
            match parse4Hex rest2 with
            | Option.none => Option.none
            | some (m, rest3) =>
                if 56320 ≤ m ∧ m ≤ 57343 then
                  some (Char.ofNat (65536 + (n - 55296) * 1024 + (m - 56320)),
                    rest3)
                else Option.none
        | _ => Option.none
      else if 56320 ≤ n ∧ n ≤ 57343 then Option.none
      else some (Char.ofNat n, rest1)

/-- Read one escape sequence (after the backslash). -/
def parseEsc (l : List Char) : Option (Char × List Char) :=
  match l with
  | [] => Option.none
  | c :: rest =>
      if c = '"' then some ('"', rest)
      else if c = '\\' then some ('\\', rest)
      else if c = '/' then some ('/', rest)
      else if c = 'n' then some ('\n', rest)
      else if c = 't' then some ('\t', rest)
      else if c = 'r' then some ('\r', rest)
      else if c = 'b' then some ('\x08', rest)
      else if c = 'f' then some ('\x0c', rest)
      else if c = 'u' then parseU rest
      else Option.none

/-- Read string-literal content up to the closing quote, fuelled by the
input length (every step consumes at least one character). -/
def parseStrLoopF : Nat → List Char → Option (List Char × List Char)
  | 0, _ => Option.none
  | _ + 1, [] => Option.none
  | fuel + 1, c :: rest =>
      if c = '"' then some ([], rest)
      else if c = '\\' then
        match parseEsc rest with
        | some (e, rest1) =>
            match parseStrLoopF fuel rest1 with
            | some (cs, r2) => some (e :: cs, r2)
            | Option.none => Option.none
        | Option.none => Option.none
      else
        match parseStrLoopF fuel rest with
        | some (cs, r2) => some (c :: cs, r2)
        | Option.none => Option.none

/-- Read string-literal content (after the opening quote). -/
def parseStrLoop (l : List Char) : Option (List Char × List Char) :=
  parseStrLoopF l.length l

/-- Accumulate decimal digits. -/
def parseNatLoop (acc : Nat) : List Char → Nat × List Char
  | [] => (acc, [])
  | c :: rest =>
      if isDigitCh c then parseNatLoop (acc * 10 + (c.toNat - 48)) rest
      else (acc, c :: rest)

/-- Read a non-empty run of decimal digits. -/
def parseNat : List Char → Option (Nat × List Char)
  | [] => Option.none
  | c :: rest =>
      if isDigitCh c then some (parseNatLoop 0 (c :: rest)) else Option.none

mutual

/-- Model of `json.loads` value parsing, fuelled: strings, objects,
integers, `true`/`false`/`null`. -/
def parseVal : Nat → List Char → Option (Val × List Char)
  | 0, _ => Option.none
  | fuel + 1, l =>
      match skipWs l with
      | [] => Option.none
      | c :: rest =>
          if c = '"' then
            match parseStrLoop rest with
            | some (cs, r) => some (Val.str (String.mk cs), r)
            | Option.none => Option.none
          else if c = '\x7b' then
            match skipWs rest with
            | [] => Option.none
            | c2 :: r =>
                if c2 = '\x7d' then some (Val.dict [], r)
                else
                  match parseMembers fuel (c2 :: r) with
                  | some (ms, r2) => some (Val.dict ms, r2)
                  | Option.none => Option.none
          else if c = '-' then
            match parseNat rest with
            | some (n, r) => some (Val.int (-(n : Int)), r)
            | Option.none => Option.none
          else if isDigitCh c then
            match parseNat (c :: rest) with
            | some (n, r) => some (Val.int ((n : Int)), r)
            | Option.none => Option.none
          else if c = 't' then
            match rest with
            | 'r' :: 'u' :: 'e' :: r => some (Val.bool true, r)
            | _ => Option.none
          else if c = 'f' then
            match rest with
            | 'a' :: 'l' :: 's' :: 'e' :: r => some (Val.bool false, r)
            | _ => Option.none
          else if c = 'n' then
            match rest with
            | 'u' :: 'l' :: 'l' :: r => some (Val.none, r)
            | _ => Option.none
          else Option.none

/-- Object members, positioned at the opening quote of a key; consumes
through the object's closing brace. -/
def parseMembers : Nat → List Char → Option (List (String × Val) × List Char)
  | 0, _ => Option.none
  | fuel + 1, l =>
      match l with
      | [] => Option.none
      | c :: rest =>
          if c = '"' then
            match parseStrLoop rest with
            | some (ks, r1) =>
                match skipWs r1 with
                | [] => Option.none
                | c2 :: r2 =>
                    if c2 = ':' then
                      match parseVal fuel r2 with
                      | some (v, r3) =>
                          match skipWs r3 with
                          | [] => Option.none
                          | c3 :: r4 =>
                              if c3 = ',' then
                                match parseMembers fuel (skipWs r4) with
                                | some (ms, r5) =>
                                    some ((String.mk ks, v) :: ms, r5)
                                | Option.none => Option.none
                              else if c3 = '\x7d' then
                                some ([(String.mk ks, v)], r4)
                              else Option.none
                      | Option.none => Option.none
                    else Option.none
            | Option.none => Option.none
          else Option.none

end

mutual

/-- Fuel sufficient for `parseVal` to read back a rendered value. -/
def jsonFuel : Val → Nat
  | .dict es => 1 + jsonFuelMembers es
  | _ => 1

/-- Fuel sufficient for `parseMembers` on a rendered member list. -/
def jsonFuelMembers : List (String × Val) → Nat
  | [] => 1
  | (_, v) :: rest => 1 + jsonFuel v + jsonFuelMembers rest

end

/-- True when the input does not continue with a decimal digit (so a
number read stops exactly here). -/
def headNotDigit : List Char → Bool
  | [] => true
  | c :: _ => !isDigitCh c

/-- Model of `json.loads` on a whole document: parse one value, then
require only trailing whitespace. -/
def parseJsonText (s : String) : Option Val :=
  match parseVal (s.data.length + 1) s.data with
  | some (v, r) =>
      match skipWs r with
      | [] => some v
      | _ => Option.none
  | Option.none => Option.none

/-- Lookup at the head key of an association list. -/
theorem lookup_cons_self (k : String) (v : Val) (rest : List (String × Val)) :
    List.lookup k ((k, v) :: rest) = some v := by
  simp [List.lookup]

/-- Lookup skips a head entry with a different key. -/
theorem lookup_cons_ne (k k1 : String) (v : Val) (rest : List (String × Val))
    (h : ¬ k = k1) : List.lookup k ((k1, v) :: rest) = List.lookup k rest := by
  simp [List.lookup, beq_eq_false_iff_ne.mpr h]

/-- Looking a key up after `d[k0] = v0`: the inserted key now maps to the
new value, every other key is untouched. -/
theorem lookup_dictInsert (d : List (String × Val)) (k k0 : String) (v0 : Val) :
    List.lookup k (dictInsert d k0 v0)
      = if k == k0 then some v0 else List.lookup k d := by
  induction d with
  | nil =>
      by_cases hk : k = k0
      · subst hk; simp [dictInsert, List.lookup]
      · simp [dictInsert, List.lookup, beq_eq_false_iff_ne.mpr hk]
  | cons kv rest ih =>
      obtain ⟨k1, v1⟩ := kv
      by_cases h01 : k1 = k0
      · subst h01
        have hd : dictInsert ((k1, v1) :: rest) k1 v0 = (k1, v0) :: rest := by
          simp [dictInsert]
        rw [hd]
        by_cases hk : k = k1
        · subst hk; simp [lookup_cons_self]
        · simp [lookup_cons_ne _ _ _ _ hk, beq_eq_false_iff_ne.mpr hk]
      · have hd : dictInsert ((k1, v1) :: rest) k0 v0
            = (k1, v1) :: dictInsert rest k0 v0 := by
          simp [dictInsert, beq_eq_false_iff_ne.mpr h01]
        rw [hd]
        by_cases hk : k = k1
        · subst hk
          simp [lookup_cons_self, beq_eq_false_iff_ne.mpr h01]
        · rw [lookup_cons_ne _ _ _ _ hk, ih, lookup_cons_ne _ _ _ _ hk]

/-- Association-list lookup distributes over append via `Option.or`. -/
theorem lookup_append_or (l1 l2 : List (String × Val)) (k : String) :
    List.lookup k (l1 ++ l2)
      = (List.lookup k l1).or (List.lookup k l2) := by
  induction l1 with
  | nil => simp [List.lookup]
  | cons kv rest ih =>
      obtain ⟨k1, v1⟩ := kv
      by_cases hk : k = k1
      · subst hk; simp [lookup_cons_self]
      · rw [List.cons_append, lookup_cons_ne _ _ _ _ hk, ih,
          lookup_cons_ne _ _ _ _ hk]

/-- Looking a key up after `d.update(entries)`: the last binding of the
key in `entries` wins, and `d` answers only for keys absent from
`entries`. -/
theorem lookup_dictUpdate (entries : List (String × Val))
    (d : List (String × Val)) (k : String) :
    List.lookup k (dictUpdate d entries)
      = (List.lookup k entries.reverse).or (List.lookup k d) := by
  induction entries generalizing d with
  | nil => simp [dictUpdate, List.lookup]
  | cons kv rest ih =>
      obtain ⟨k0, v0⟩ := kv
      have hstep : dictUpdate d ((k0, v0) :: rest)
          = dictUpdate (dictInsert d k0 v0) rest := by
        simp [dictUpdate]
      rw [hstep, ih, lookup_dictInsert, List.reverse_cons, lookup_append_or]
      cases List.lookup k rest.reverse with
      | none =>
          by_cases hk : k = k0
          · subst hk; simp [lookup_cons_self]
          · simp [lookup_cons_ne _ _ _ _ hk, beq_eq_false_iff_ne.mpr hk,
              List.lookup]
      | some a => simp

/-- Claim C8: `ErrorContext.to_dict` keeps exactly the named fields that
are present and merges all metadata entries into the same mapping, a
metadata binding silently overwriting a named field (last-write-wins).
The first conjunct is the spec's concrete example; the second
characterizes every lookup in the produced mapping (metadata's last
binding wins, the named fields answer otherwise); the middle conjuncts
show each named field is bound exactly when it is present; the last
conjunct is a concrete collision showing the metadata value winning. -/
theorem c8_context_to_dict (ctx : ErrorContext) (k : String) :
    ((ErrorContext.mk (Val.str "/a") (Val.str "T1") Val.none Val.none []).to_dict
      = [("session_path", Val.str "/a"), ("task_id", Val.str "T1")])
    ∧ (List.lookup k ctx.to_dict
        = (List.lookup k ctx.metadata.reverse).or (List.lookup k ctx.namedPairs))
    ∧ (List.lookup "session_path" ctx.namedPairs
        = if ctx.session_path.isNone then Option.none else some ctx.session_path)
    ∧ (List.lookup "task_id" ctx.namedPairs
        = if ctx.task_id.isNone then Option.none else some ctx.task_id)
    ∧ (List.lookup "operation" ctx.namedPairs
        = if ctx.operation.isNone then Option.none else some ctx.operation)
    ∧ (List.lookup "user_id" ctx.namedPairs
        = if ctx.user_id.isNone then Option.none else some ctx.user_id)
    ∧ ((ErrorContext.mk Val.none (Val.str "T1") Val.none Val.none
          [("task_id", Val.str "X")]).to_dict
        = [("task_id", Val.str "X")]) := by
  refine ⟨rfl, lookup_dictUpdate ctx.metadata ctx.namedPairs k, ?_, ?_, ?_, ?_, rfl⟩
  all_goals
    cases h1 : ctx.session_path.isNone <;>
    cases h2 : ctx.task_id.isNone <;>
    cases h3 : ctx.operation.isNone <;>
    cases h4 : ctx.user_id.isNone <;>
    simp [ErrorContext.namedPairs, h1, h2, h3, h4, List.lookup]

/-- Claim C6: shape of `PipelineError.to_dict`. The key list is exactly
`name, code, message, timestamp`, plus `context` exactly when the context
dictionary is non-empty, plus `cause` exactly when a cause is attached;
`name` is the variant's class name; `message` is the error's string form
`"[<code>] <message>"` with `" | Context: <context dict>"` appended when
the context is non-empty; the cause sub-record is exactly the immediate
cause's class name and string form. -/
theorem c6_to_dict_contract (v : Variant) (message : String)
    (ctx : ErrorContext) (cause : Option Exc) (ts : String) :
    ((PipelineError.to_dict v message ctx cause ts).map Prod.fst
      = ["name", "code", "message", "timestamp"]
        ++ (if (ctx.to_dict).isEmpty then [] else ["context"])
        ++ (match cause with | Option.none => [] | some _ => ["cause"]))
    ∧ (List.lookup "name" (PipelineError.to_dict v message ctx cause ts)
        = some (Val.str v.className))
    ∧ (List.lookup "message" (PipelineError.to_dict v message ctx cause ts)
        = some (Val.str (Exc.pyStr (Exc.pipe v message ctx cause ts))))
    ∧ (Exc.pyStr (Exc.pipe v message ctx cause ts)
        = "[" ++ v.code ++ "] " ++ message
          ++ (if (ctx.to_dict).isEmpty then ""
              else " | Context: " ++ pyReprDict ctx.to_dict))
    ∧ (List.lookup "timestamp" (PipelineError.to_dict v message ctx cause ts)
        = some (Val.str ts))
    ∧ (List.lookup "context" (PipelineError.to_dict v message ctx cause ts)
        = (if (ctx.to_dict).isEmpty then Option.none
           else some (Val.dict ctx.to_dict)))
    ∧ (List.lookup "cause" (PipelineError.to_dict v message ctx cause ts)
        = cause.map (fun c => Val.dict [("name", Val.str c.className),
                                        ("message", Val.str c.pyStr)])) := by
  cases hc : (ctx.to_dict).isEmpty <;> cases cause <;>
    simp [PipelineError.to_dict, Exc.pyStr, hc, List.lookup,
      String.append_assoc]

/-- Claim C5, counterexample: the claim quantifies over every instance
constructible through the public constructors, but `SessionError`'s
`code` keyword is an arbitrary string, so a code outside the Error Code
Registry is constructible and surfaces unchanged in `to_dict`. -/
theorem c5_counterexample :
    (SessionError.mk "boom" CtxArg.noneArg Option.none
        (some "TOTALLY_BOGUS") "2024-01-01T00:00:00"
      = Except.ok (Exc.pipe (Variant.sessionError "TOTALLY_BOGUS") "boom"
          ErrorContext.empty Option.none "2024-01-01T00:00:00"))
    ∧ (List.lookup "code"
        (PipelineError.to_dict (Variant.sessionError "TOTALLY_BOGUS") "boom"
          ErrorContext.empty Option.none "2024-01-01T00:00:00")
      = some (Val.str "TOTALLY_BOGUS"))
    ∧ isErrorCode "TOTALLY_BOGUS" = false := by
  refine ⟨rfl, ?_, by decide⟩
  simp [PipelineError.to_dict, List.lookup, Variant.code]

/-- Claim C5 as amended: `to_dict()["code"]` always equals the `code`
accessor; the code is a member of the Error Code Registry for every
fixed-code variant and for `SessionError`/`ValidationError` constructed
with the default code, while an explicitly supplied code string is stored
verbatim and therefore lies in the registry exactly when the supplied
string does. -/
theorem c5_amended_code_contract (v : Variant) (message : String)
    (c : ErrorContext) (cause : Option Exc) (ts code : String) :
    (List.lookup "code" (PipelineError.to_dict v message c cause ts)
      = some (Val.str v.code))
    ∧ (isErrorCode Variant.taskError.code = true)
    ∧ (isErrorCode Variant.bugfixSessionValidationError.code = true)
    ∧ (isErrorCode Variant.nestedExecutionError.code = true)
    ∧ (SessionError.mk message (CtxArg.ctx c) cause Option.none ts
        = Except.ok (Exc.pipe
            (Variant.sessionError ErrorCode.SESSION_LOAD_FAILED.value)
            message c cause ts))
    ∧ (isErrorCode ErrorCode.SESSION_LOAD_FAILED.value = true)
    ∧ (ValidationError.mk message (CtxArg.ctx c) cause Option.none ts
        = Except.ok (Exc.pipe
            (Variant.validationError ErrorCode.VALIDATION_INVALID_INPUT.value)
            message c cause ts))
    ∧ (isErrorCode ErrorCode.VALIDATION_INVALID_INPUT.value = true)
    ∧ (SessionError.mk message (CtxArg.ctx c) cause (some code) ts
        = Except.ok (Exc.pipe (Variant.sessionError code) message c cause ts))
    ∧ (ValidationError.mk message (CtxArg.ctx c) cause (some code) ts
        = Except.ok (Exc.pipe (Variant.validationError code) message c cause ts))
    ∧ (isErrorCode (Variant.sessionError code).code = isErrorCode code)
    ∧ (isErrorCode (Variant.validationError code).code = isErrorCode code) := by
  refine ⟨?_, by decide, by decide, by decide, rfl, by decide, rfl, by decide,
    rfl, rfl, rfl, rfl⟩
  simp [PipelineError.to_dict, List.lookup]

/-- Characters are determined by their scalar value. -/
theorem char_toNat_inj (a b : Char) (h : a.toNat = b.toNat) : a = b :=
  Char.ext (UInt32.toNat.inj h)

/-- A character's scalar value avoids the surrogate range. -/
theorem char_valid_cases (c : Char) :
    c.toNat < 55296 ∨ (57343 < c.toNat ∧ c.toNat < 1114112) := c.valid

/-- Reading back one rendered hex digit. -/
theorem hexVal_hexDigit (n : Nat) (h : n < 16) : hexVal (hexDigit n) = some n := by
  interval_cases n <;> decide

/-- Reading back four rendered hex digits. -/
theorem parse4Hex_hex4 (n : Nat) (h : n < 65536) (rest : List Char) :
    parse4Hex (hex4 n ++ rest) = some (n, rest) := by
  have h1 : n / 4096 % 16 < 16 := Nat.mod_lt _ (by omega)
  have h2 : n / 256 % 16 < 16 := Nat.mod_lt _ (by omega)
  have h3 : n / 16 % 16 < 16 := Nat.mod_lt _ (by omega)
  have h4 : n % 16 < 16 := Nat.mod_lt _ (by omega)
  simp [hex4, parse4Hex, hexVal_hexDigit _ h1, hexVal_hexDigit _ h2,
    hexVal_hexDigit _ h3, hexVal_hexDigit _ h4]
  omega

/-- Rebuilding a character from a target scalar value. -/
theorem charOfNat_eq (a : Nat) (c : Char) (h : a = c.toNat) :
    Char.ofNat a = c := by rw [h, Char.ofNat_toNat]

/-- The surrogate-pair reader recombines a rendered high/low pair. -/
theorem parseU_pair (hi lo : Nat) (hhi : hi < 65536)
    (hhi2 : 55296 ≤ hi ∧ hi ≤ 56319) (hlo : lo < 65536)
    (hlo2 : 56320 ≤ lo ∧ lo ≤ 57343) (rest : List Char) :
    parseU (hex4 hi ++ ('\\' :: 'u' :: (hex4 lo ++ rest)))
      = some (Char.ofNat (65536 + (hi - 55296) * 1024 + (lo - 56320)), rest) := by
  simp [parseU, parse4Hex_hex4 _ hhi, parse4Hex_hex4 _ hlo, hhi2, hlo2]

/-- Reading back a whole surrogate-pair escape body. -/
theorem parseEsc_pair (hi lo : Nat) (c : Char) (hhi : hi < 65536)
    (hhi2 : 55296 ≤ hi ∧ hi ≤ 56319) (hlo : lo < 65536)
    (hlo2 : 56320 ≤ lo ∧ lo ≤ 57343)
    (heq : 65536 + (hi - 55296) * 1024 + (lo - 56320) = c.toNat)
    (rest : List Char) :
    parseEsc ('u' :: (hex4 hi ++ ('\\' :: 'u' :: (hex4 lo ++ rest))))
      = some (c, rest) := by
  simp [parseEsc, parseU_pair hi lo hhi hhi2 hlo hlo2 rest,
    charOfNat_eq _ c heq]

/-- Every character's `json.dumps` escape is either the character itself
(printable, not a JSON special) or a backslash sequence that `parseEsc`
reads back to exactly that character. -/
theorem jsonEscChar_spec (c : Char) :
    (jsonEscChar c = [c] ∧ ¬ c = '"' ∧ ¬ c = '\\')
    ∨ (∃ seq, jsonEscChar c = '\\' :: seq ∧
        ∀ rest, parseEsc (seq ++ rest) = some (c, rest)) := by
  by_cases h1 : c = '"'
  · subst h1
    exact Or.inr ⟨['"'], by decide, fun rest => by simp [parseEsc]⟩
  by_cases h2 : c = '\\'
  · subst h2
    exact Or.inr ⟨['\\'], by decide, fun rest => by simp [parseEsc]⟩
  by_cases h3 : c = '\n'
  · subst h3
    exact Or.inr ⟨['n'], by decide, fun rest => by simp [parseEsc]⟩
  by_cases h4 : c = '\t'
  · subst h4
    exact Or.inr ⟨['t'], by decide, fun rest => by simp [parseEsc]⟩
  by_cases h5 : c = '\r'
  · subst h5
    exact Or.inr ⟨['r'], by decide, fun rest => by simp [parseEsc]⟩
  by_cases h6 : c = '\x08'
  · subst h6
    exact Or.inr ⟨['b'], by decide, fun rest => by simp [parseEsc]⟩
  by_cases h7 : c = '\x0c'
  · subst h7
    exact Or.inr ⟨['f'], by decide, fun rest => by simp [parseEsc]⟩
  by_cases h8 : 32 ≤ c.toNat ∧ c.toNat ≤ 126
  · left
    refine ⟨?_, h1, h2⟩
    simp [jsonEscChar, h1, h2, h3, h4, h5, h6, h7, h8]
  have hval := char_valid_cases c
  by_cases h9 : c.toNat < 65536
  · right
    refine ⟨'u' :: hex4 c.toNat, ?_, ?_⟩
    · simp [jsonEscChar, h1, h2, h3, h4, h5, h6, h7, h8, h9, uEsc]
    · intro rest
      have hs1 : ¬ (55296 ≤ c.toNat ∧ c.toNat ≤ 56319) := by
        rcases hval with h | h <;> omega
      have hs2 : ¬ (56320 ≤ c.toNat ∧ c.toNat ≤ 57343) := by
        rcases hval with h | h <;> omega
      simp [parseEsc, parseU, parse4Hex_hex4 _ h9, hs1, hs2, Char.ofNat_toNat]
  · right
    have hlt : c.toNat < 1114112 := by rcases hval with h | h <;> omega
    have hq : (c.toNat - 65536) / 1024 ≤ 1023 := by omega
    have hr : (c.toNat - 65536) % 1024 < 1024 :=
      Nat.mod_lt _ (by omega)
    refine ⟨'u' :: hex4 (55296 + (c.toNat - 65536) / 1024)
        ++ '\\' :: 'u' :: hex4 (56320 + (c.toNat - 65536) % 1024), ?_, ?_⟩
    · simp [jsonEscChar, h1, h2, h3, h4, h5, h6, h7, h8, h9, uEsc]
    · intro rest
      have hhi : 55296 + (c.toNat - 65536) / 1024 < 65536 := by omega
      have hhi2 : 55296 ≤ 55296 + (c.toNat - 65536) / 1024 ∧
          55296 + (c.toNat - 65536) / 1024 ≤ 56319 := by omega
      have hlo : 56320 + (c.toNat - 65536) % 1024 < 65536 := by omega
      have hlo2 : 56320 ≤ 56320 + (c.toNat - 65536) % 1024 ∧
          56320 + (c.toNat - 65536) % 1024 ≤ 57343 := by omega
      have hform : ('u' :: hex4 (55296 + (c.toNat - 65536) / 1024)
            ++ '\\' :: 'u' :: hex4 (56320 + (c.toNat - 65536) % 1024)) ++ rest
          = 'u' :: (hex4 (55296 + (c.toNat - 65536) / 1024)
            ++ ('\\' :: 'u' :: (hex4 (56320 + (c.toNat - 65536) % 1024) ++ rest))) := by
        simp [List.append_assoc]
      rw [hform]
      exact parseEsc_pair _ _ c hhi hhi2 hlo hlo2 (by omega) rest

/-- A rendered string body parses back to exactly its characters, leaving
everything after the closing quote untouched, for any fuel at least the
number of consumed characters. -/
theorem parseStrLoopF_escape (cs : List Char) :
    ∀ fuel l, (cs.flatMap jsonEscChar).length + 1 ≤ fuel →
      parseStrLoopF fuel (cs.flatMap jsonEscChar ++ '"' :: l) = some (cs, l) := by
  induction cs with
  | nil =>
      intro fuel l hf
      obtain ⟨f, rfl⟩ : ∃ f, fuel = f + 1 := ⟨fuel - 1, by omega⟩
      simp [parseStrLoopF]
  | cons c cs ih =>
      intro fuel l hf
      rcases jsonEscChar_spec c with ⟨ha, hb, hc⟩ | ⟨seq, hseq, hparse⟩
      · rw [List.flatMap_cons, ha] at hf ⊢
        obtain ⟨f, rfl⟩ : ∃ f, fuel = f + 1 := ⟨fuel - 1, by omega⟩
        simp only [List.cons_append, List.singleton_append]
        have hlen : (cs.flatMap jsonEscChar).length + 1 ≤ f := by
          simp only [List.singleton_append, List.cons_append, List.length_append,
            List.length_cons, List.length_flatMap] at hf ⊢
          omega
        simp [parseStrLoopF, hb, hc, ih f l hlen]
      · rw [List.flatMap_cons, hseq] at hf ⊢
        obtain ⟨f, rfl⟩ : ∃ f, fuel = f + 1 := ⟨fuel - 1, by omega⟩
        have hlen : (cs.flatMap jsonEscChar).length + 1 ≤ f := by
          simp only [List.singleton_append, List.cons_append, List.length_append,
            List.length_cons, List.length_flatMap] at hf ⊢
          omega
        simp only [List.cons_append, List.append_assoc]
        simp [parseStrLoopF, hparse, ih f l hlen]

/-- The wrapped string-content reader inverts escaping. -/
theorem parseStrLoop_flat (cs : List Char) (l : List Char) :
    parseStrLoop (cs.flatMap jsonEscChar ++ '"' :: l) = some (cs, l) := by
  apply parseStrLoopF_escape
  simp

/-- Scalar value of a rendered decimal digit. -/
theorem toNat_digitChar (d : Nat) (h : d < 10) : (digitChar d).toNat = 48 + d := by
  interval_cases d <;> decide

/-- A rendered decimal digit is a digit character. -/
theorem isDigitCh_digitChar (d : Nat) (h : d < 10) :
    isDigitCh (digitChar d) = true := by
  simp only [isDigitCh, toNat_digitChar d h, Bool.and_eq_true, decide_eq_true_eq]
  omega

/-- Scalar bounds of a digit character. -/
theorem digit_bounds (c : Char) (h : isDigitCh c = true) :
    48 ≤ c.toNat ∧ c.toNat ≤ 57 := by
  simp only [isDigitCh, Bool.and_eq_true, decide_eq_true_eq] at h
  exact h

/-- Digit characters are not JSON whitespace. -/
theorem isWs_digit (c : Char) (h : isDigitCh c = true) : isWs c = false := by
  obtain ⟨h1, h2⟩ := digit_bounds c h
  simp only [isWs, Bool.or_eq_false_iff, decide_eq_false_iff_not]
  omega

/-- A digit character differs from any non-digit character. -/
theorem digit_ne_char (c d : Char) (h : isDigitCh c = true)
    (hd : isDigitCh d = false) : ¬ c = d := by
  intro he
  rw [he, hd] at h
  exact Bool.false_ne_true h

/-- Unfolding `natDigits` below ten. -/
theorem natDigits_low (n : Nat) (h : n < 10) : natDigits n = [digitChar n] := by
  unfold natDigits
  simp [h]

/-- Unfolding `natDigits` at ten and above. -/
theorem natDigits_high (n : Nat) (h : ¬ n < 10) :
    natDigits n = natDigits (n / 10) ++ [digitChar (n % 10)] := by
  conv_lhs => rw [natDigits]
  simp [h]

/-- A rendered number starts with a digit. -/
theorem natDigits_head (n : Nat) :
    ∃ c t, natDigits n = c :: t ∧ isDigitCh c = true := by
  induction n using Nat.strong_induction_on with
  | _ n ih =>
      by_cases h : n < 10
      · exact ⟨digitChar n, [], natDigits_low n h, isDigitCh_digitChar n h⟩
      · obtain ⟨c, t, he, hd⟩ := ih (n / 10) (by omega)
        refine ⟨c, t ++ [digitChar (n % 10)], ?_, hd⟩
        rw [natDigits_high n h, he, List.cons_append]

/-- Accumulating the rendered digits of `n` shifts the accumulator by the
digit count and adds `n`. -/
theorem parseNatLoop_digits (n : Nat) :
    ∀ acc l, parseNatLoop acc (natDigits n ++ l)
      = parseNatLoop (acc * 10 ^ (natDigits n).length + n) l := by
  induction n using Nat.strong_induction_on with
  | _ n ih =>
      intro acc l
      by_cases h : n < 10
      · rw [natDigits_low n h]
        simp only [List.singleton_append, List.length_cons, List.length_nil]
        rw [show parseNatLoop acc (digitChar n :: l)
            = parseNatLoop (acc * 10 + ((digitChar n).toNat - 48)) l from by
          simp [parseNatLoop, isDigitCh_digitChar n h]]
        congr 1
        rw [toNat_digitChar n h, pow_one]
        omega
      · rw [natDigits_high n h, List.append_assoc]
        rw [ih (n / 10) (by omega) acc ([digitChar (n % 10)] ++ l)]
        simp only [List.singleton_append]
        have hm : n % 10 < 10 := Nat.mod_lt _ (by omega)
        rw [show parseNatLoop (acc * 10 ^ (natDigits (n / 10)).length + n / 10)
              (digitChar (n % 10) :: l)
            = parseNatLoop ((acc * 10 ^ (natDigits (n / 10)).length + n / 10) * 10
                + ((digitChar (n % 10)).toNat - 48)) l from by
          simp [parseNatLoop, isDigitCh_digitChar _ hm]]
        congr 1
        rw [toNat_digitChar _ hm]
        simp only [List.length_append, List.length_cons, List.length_nil,
          pow_succ, ← mul_assoc]
        omega

/-- The digit accumulator stops exactly at a non-digit. -/
theorem parseNatLoop_stop (acc : Nat) (l : List Char)
    (h : headNotDigit l = true) : parseNatLoop acc l = (acc, l) := by
  cases l with
  | nil => rfl
  | cons c rest =>
      simp only [headNotDigit, Bool.not_eq_true'] at h
      simp [parseNatLoop, h]

/-- Reading back a rendered natural number. -/
theorem parseNat_natDigits (n : Nat) (l : List Char)
    (h : headNotDigit l = true) :
    parseNat (natDigits n ++ l) = some (n, l) := by
  obtain ⟨c, t, he, hd⟩ := natDigits_head n
  rw [he, List.cons_append]
  simp only [parseNat, hd, if_true]
  rw [← List.cons_append, ← he, parseNatLoop_digits n 0 l]
  simp only [Nat.zero_mul, Nat.zero_add]
  rw [parseNatLoop_stop n l h]

/-- Whitespace skipping stops at a non-whitespace head. -/
theorem skipWs_cons_false (c : Char) (l : List Char) (h : isWs c = false) :
    skipWs (c :: l) = c :: l := by simp [skipWs, h]

/-- Whitespace skipping consumes a whitespace head. -/
theorem skipWs_cons_true (c : Char) (l : List Char) (h : isWs c = true) :
    skipWs (c :: l) = skipWs l := by simp [skipWs, h]

/-- Whitespace skipping consumes an indentation run. -/
theorem skipWs_replicate (m : Nat) (l : List Char) :
    skipWs (List.replicate m ' ' ++ l) = skipWs l := by
  induction m with
  | zero => simp
  | succ k ih =>
      rw [List.replicate_succ, List.cons_append,
        skipWs_cons_true _ _ (by decide), ih]

/-- The value parser ignores a leading whitespace character. -/
theorem parseVal_cons_ws (fuel : Nat) (c : Char) (l : List Char)
    (h : isWs c = true) : parseVal fuel (c :: l) = parseVal fuel l := by
  cases fuel with
  | zero => rfl
  | succ f => simp [parseVal, skipWs_cons_true c l h]

/-- After indentation, a rendered member list starts at the key's opening
quote; the remainder is the escaped key, closing quote, colon, space, the
rendered value, and the separator or nothing. -/
theorem skipWs_renderEntries (k : String) (v : Val) (rest : List (String × Val))
    (lvl : Nat) (tail : List Char) :
    skipWs (renderEntries ((k, v) :: rest) lvl ++ tail)
      = '"' :: (k.data.flatMap jsonEscChar ++ '"' :: ':' :: ' ' ::
          (renderJson v lvl ++ ((match rest with
              | [] => ([] : List Char)
              | _ :: _ => ',' :: '\n' :: renderEntries rest lvl) ++ tail))) := by
  have hq : ∀ z : List Char, skipWs ('"' :: z) = '"' :: z :=
    fun z => skipWs_cons_false _ z (by decide)
  cases rest <;>
    simp [renderEntries, indentL, jsonQuoteL, skipWs_replicate,
      List.append_assoc, hq]

/-- Fuel is always positive. -/
theorem jsonFuel_pos (v : Val) : 1 ≤ jsonFuel v := by
  cases v <;> simp [jsonFuel]

/-- Member fuel is always positive. -/
theorem jsonFuelMembers_pos (es : List (String × Val)) :
    1 ≤ jsonFuelMembers es := by
  cases es with
  | nil => simp [jsonFuelMembers]
  | cons e rest =>
      obtain ⟨k, v⟩ := e
      simp [jsonFuelMembers]
      omega

/-- The fuel needed to read a value back never exceeds the length of its
rendering plus one (each fuel unit consumes at least one character). -/
theorem jsonFuel_le_render (N : Nat) :
    (∀ v lvl, jsonFuel v ≤ N → jsonFuel v ≤ (renderJson v lvl).length + 1)
    ∧ (∀ es lvl, es ≠ [] → jsonFuelMembers es ≤ N →
        jsonFuelMembers es ≤ (renderEntries es lvl).length + 2) := by
  induction N with
  | zero =>
      constructor
      · intro v lvl h
        have := jsonFuel_pos v
        omega
      · intro es lvl hne h
        have := jsonFuelMembers_pos es
        omega
  | succ N ih =>
      constructor
      · intro v lvl h
        cases v with
        | str s => simp [jsonFuel]
        | int n => simp [jsonFuel]
        | bool b => simp [jsonFuel]
        | none => simp [jsonFuel]
        | dict d =>
            cases d with
            | nil => simp [jsonFuel, jsonFuelMembers, renderJson]
            | cons e es =>
                have hm : jsonFuelMembers (e :: es) ≤ N := by
                  simp [jsonFuel] at h
                  omega
                have hle := ih.2 (e :: es) (lvl + 1) (by simp) hm
                simp only [jsonFuel, renderJson, indentL, List.length_cons,
                  List.length_append, List.length_replicate]
                omega
      · intro es lvl hne h
        cases es with
        | nil => exact absurd rfl hne
        | cons e rest =>
            obtain ⟨k, v⟩ := e
            have h1 : jsonFuel v ≤ N := by
              have := jsonFuelMembers_pos rest
              simp [jsonFuelMembers] at h
              omega
            have hv := ih.1 v lvl h1
            cases rest with
            | nil =>
                simp only [jsonFuelMembers, renderEntries, jsonQuoteL, indentL,
                  List.length_append, List.length_cons, List.length_replicate,
                  List.length_nil]
                simp only [jsonFuelMembers] at hv ⊢
                omega
            | cons e2 rest2 =>
                have h2 : jsonFuelMembers (e2 :: rest2) ≤ N := by
                  have := jsonFuel_pos v
                  simp only [jsonFuelMembers] at h ⊢
                  omega
                have hr := ih.2 (e2 :: rest2) lvl (by simp) h2
                simp only [jsonFuelMembers, renderEntries, jsonQuoteL, indentL,
                  List.length_append, List.length_cons, List.length_replicate,
                  List.length_nil] at hr ⊢
                omega

/-- The value parser reads a rendered natural number in one step of
fuel. -/
theorem parseVal_nat (f : Nat) (n : Nat) (l : List Char)
    (hl : headNotDigit l = true) :
    parseVal (f + 1) (natDigits n ++ l) = some (Val.int (n : Int), l) := by
  obtain ⟨c, t, he, hd⟩ := natDigits_head n
  have hw := isWs_digit c hd
  have hne1 := digit_ne_char c '"' hd (by decide)
  have hne2 := digit_ne_char c '\x7b' hd (by decide)
  have hne3 := digit_ne_char c '-' hd (by decide)
  have hback : c :: (t ++ l) = natDigits n ++ l := by
    rw [he, List.cons_append]
  rw [he, List.cons_append]
  simp only [parseVal, skipWs_cons_false _ _ hw]
  rw [if_neg hne1, if_neg hne2, if_neg hne3, if_pos hd]
  rw [hback, parseNat_natDigits n l hl]

/-- Round trip of the fuelled parser against the renderer: a rendered
value followed by non-digit input parses back to exactly that value, and
a rendered member list (as positioned by the object branch) parses back
to exactly those members, consuming the closing brace. -/
theorem parse_render (fuel : Nat) :
    (∀ v lvl l, jsonFuel v ≤ fuel → headNotDigit l = true →
        parseVal fuel (renderJson v lvl ++ l) = some (v, l))
    ∧ (∀ es lvl m l, es ≠ [] → jsonFuelMembers es ≤ fuel →
        parseMembers fuel
          (skipWs (renderEntries es lvl
            ++ '\n' :: (List.replicate m ' ' ++ '\x7d' :: l)))
          = some (es, l)) := by
  induction fuel with
  | zero =>
      constructor
      · intro v lvl l hf _
        have := jsonFuel_pos v
        omega
      · intro es lvl m l hne hf
        have := jsonFuelMembers_pos es
        omega
  | succ f ih =>
      constructor
      · intro v lvl l hf hl
        cases v with
        | str s =>
            have hform : renderJson (Val.str s) lvl ++ l
                = '"' :: (s.data.flatMap jsonEscChar ++ '"' :: l) := by
              simp [renderJson, jsonQuoteL]
            rw [hform]
            have hs : String.mk s.data = s := rfl
            simp [parseVal, skipWs_cons_false _ _ (by decide : isWs '"' = false),
              parseStrLoop_flat, hs]
        | int n =>
            by_cases hn : n < 0
            · have hform : renderJson (Val.int n) lvl ++ l
                  = '-' :: (natDigits n.natAbs ++ l) := by
                simp [renderJson, intReprL, hn]
              rw [hform]
              simp only [parseVal,
                skipWs_cons_false _ _ (by decide : isWs '-' = false)]
              rw [if_neg (by decide), if_neg (by decide)]
              simp only [if_true]
              rw [parseNat_natDigits _ _ hl]
              simp only [Option.some.injEq, Prod.mk.injEq, Val.int.injEq,
                eq_self_iff_true, and_true]
              omega
            · have hform : renderJson (Val.int n) lvl ++ l
                  = natDigits n.natAbs ++ l := by
                simp [renderJson, intReprL, hn]
              rw [hform, parseVal_nat f n.natAbs l hl]
              simp only [Option.some.injEq, Prod.mk.injEq, Val.int.injEq,
                eq_self_iff_true, and_true]
              omega
        | bool b =>
            cases b
            · have hform : renderJson (Val.bool false) lvl ++ l
                  = 'f' :: 'a' :: 'l' :: 's' :: 'e' :: l := by
                simp [renderJson]
              rw [hform]
              simp [parseVal, skipWs_cons_false _ _ (by decide : isWs 'f' = false),
                (by decide : isDigitCh 'f' = false)]
            · have hform : renderJson (Val.bool true) lvl ++ l
                  = 't' :: 'r' :: 'u' :: 'e' :: l := by
                simp [renderJson]
              rw [hform]
              simp [parseVal, skipWs_cons_false _ _ (by decide : isWs 't' = false),
                (by decide : isDigitCh 't' = false)]
        | none =>
            have hform : renderJson Val.none lvl ++ l
                = 'n' :: 'u' :: 'l' :: 'l' :: l := by
              simp [renderJson]
            rw [hform]
            simp [parseVal, skipWs_cons_false _ _ (by decide : isWs 'n' = false),
              (by decide : isDigitCh 'n' = false)]
        | dict d =>
            cases d with
            | nil =>
                have hform : renderJson (Val.dict []) lvl ++ l
                    = '\x7b' :: '\x7d' :: l := by
                  simp [renderJson]
                rw [hform]
                simp [parseVal,
                  skipWs_cons_false _ _ (by decide : isWs '\x7b' = false),
                  skipWs_cons_false _ _ (by decide : isWs '\x7d' = false),
                  (by decide : isDigitCh '\x7b' = false)]
            | cons e es =>
                obtain ⟨k, v0⟩ := e
                have hform : renderJson (Val.dict ((k, v0) :: es)) lvl ++ l
                    = '\x7b' :: '\n' :: (renderEntries ((k, v0) :: es) (lvl + 1)
                        ++ '\n' :: (List.replicate (2 * lvl) ' ' ++ '\x7d' :: l)) := by
                  simp [renderJson, indentL, List.append_assoc]
                rw [hform]
                have hm : jsonFuelMembers ((k, v0) :: es) ≤ f := by
                  simp only [jsonFuel] at hf
                  omega
                have hmem := ih.2 ((k, v0) :: es) (lvl + 1) (2 * lvl) l
                  (by simp) hm
                have hsk := skipWs_renderEntries k v0 es (lvl + 1)
                  ('\n' :: (List.replicate (2 * lvl) ' ' ++ '\x7d' :: l))
                simp only [parseVal,
                  skipWs_cons_false _ _ (by decide : isWs '\x7b' = false)]
                rw [if_neg (by decide)]
                simp only [if_true]
                rw [skipWs_cons_true _ _ (by decide : isWs '\n' = true), hsk]
                simp only [if_neg (show ¬('"' : Char) = '\x7d' by decide)]
                rw [← hsk, hmem]
      · intro es lvl m l hne hf
        have hcolon : ∀ L : List Char, skipWs (':' :: L) = ':' :: L :=
          fun L => skipWs_cons_false ':' L (by decide)
        have hcomma : ∀ L : List Char, skipWs (',' :: L) = ',' :: L :=
          fun L => skipWs_cons_false ',' L (by decide)
        have hnl : ∀ L : List Char, skipWs ('\n' :: L) = skipWs L :=
          fun L => skipWs_cons_true '\n' L (by decide)
        have hrb : ∀ L : List Char, skipWs ('\x7d' :: L) = '\x7d' :: L :=
          fun L => skipWs_cons_false '\x7d' L (by decide)
        have hspace : ∀ L : List Char, parseVal f (' ' :: L) = parseVal f L :=
          fun L => parseVal_cons_ws f ' ' L (by decide)
        cases es with
        | nil => exact absurd rfl hne
        | cons e rest =>
            obtain ⟨k, v0⟩ := e
            have hks : String.mk k.data = k := rfl
            have hfv : jsonFuel v0 ≤ f := by
              have := jsonFuelMembers_pos rest
              simp only [jsonFuelMembers] at hf
              omega
            rw [skipWs_renderEntries k v0 rest lvl
              ('\n' :: (List.replicate m ' ' ++ '\x7d' :: l))]
            cases rest with
            | nil =>
                simp only [parseMembers, if_true, parseStrLoop_flat, hcolon,
                  hspace, List.nil_append]
                rw [ih.1 v0 lvl ('\n' :: (List.replicate m ' ' ++ '\x7d' :: l))
                  hfv rfl]
                simp only [hnl, skipWs_replicate, hrb, hks,
                  if_neg (show ¬('\x7d' : Char) = ',' by decide), if_true]
            | cons e2 rest2 =>
                have hfr : jsonFuelMembers (e2 :: rest2) ≤ f := by
                  have := jsonFuel_pos v0
                  simp only [jsonFuelMembers] at hf ⊢
                  omega
                simp only [parseMembers, if_true, parseStrLoop_flat, hcolon,
                  hspace, List.cons_append]
                rw [ih.1 v0 lvl
                  (',' :: '\n' :: (renderEntries (e2 :: rest2) lvl
                    ++ '\n' :: (List.replicate m ' ' ++ '\x7d' :: l)))
                  hfv rfl]
                simp only [hcomma, if_true, hnl,
                  ih.2 (e2 :: rest2) lvl m l (by simp) hfr, hks]

/-- Claim C7: for every constructible `PipelineError` instance, calling
`to_json()` and parsing the resulting JSON text back yields a mapping
structurally equal to the mapping returned by `to_dict()` (here: parsing
the rendered text recovers exactly the `to_dict` association list, key
order included). -/
theorem c7_to_json_round_trip (v : Variant) (message : String)
    (ctx : ErrorContext) (cause : Option Exc) (ts : String) :
    parseJsonText (PipelineError.to_json v message ctx cause ts)
      = some (Val.dict (PipelineError.to_dict v message ctx cause ts)) := by
  unfold PipelineError.to_json parseJsonText
  have hfb := (jsonFuel_le_render
      (jsonFuel (Val.dict (PipelineError.to_dict v message ctx cause ts)))).1
      (Val.dict (PipelineError.to_dict v message ctx cause ts)) 0 le_rfl
  have hrt := (parse_render
      ((renderJson (Val.dict (PipelineError.to_dict v message ctx cause ts)) 0).length
        + 1)).1
      (Val.dict (PipelineError.to_dict v message ctx cause ts)) 0 [] (by omega) rfl
  rw [List.append_nil] at hrt
  have hdata : (String.mk
      (renderJson (Val.dict (PipelineError.to_dict v message ctx cause ts)) 0)).data
      = renderJson (Val.dict (PipelineError.to_dict v message ctx cause ts)) 0 := rfl
  rw [hdata, hrt]
  rfl

end PipelineErr
